import Mathlib

/-!
Shallow embedding of the check-cx scheduling/execution core, together with
theorems settling the spec claims against it.

Conventions used throughout:
* JS numbers are modelled as `ℚ` where configuration values may be fractional
  (metadata overrides, env-derived intervals) and as `Int` where the code only
  ever produces integer milliseconds (`Date.now()` timestamps, latencies).
* Environment variables and metadata entries arrive in the code as arbitrary
  JS values that are pushed through `Number(...)` / `Number.isFinite(...)`;
  they are modelled by `MetaVal` below, which records only what those checks
  can observe (a finite numeric value, possibly given as a string, or
  anything whose conversion is not finite).
* Database conditional updates (the lease) are modelled as pure state
  transitions on the single lease row; the database serialises the
  conditional updates, so a set of concurrent calls is a sequence of
  transitions.
-/

namespace CheckCx

/-! ## JS metadata values (shared by polling-config.ts and ai-sdk-check.ts) -/

/-- A JS value stored under a metadata key (or in an env var), as observed by
the numeric readers in the source: `num q` is a finite number, `numStr q` a
string whose `Number(...)` conversion is the finite value `q`, and
`nonFinite` anything whose conversion is NaN or infinite (non-numeric
strings, NaN, ±Infinity, objects, ...). -/
inductive MetaVal where
  | num (q : ℚ)
  | numStr (q : ℚ)
  | nonFinite
deriving DecidableEq, Repr

/-- The result of `typeof raw === "number" ? raw : Number(raw)` followed by
the `Number.isFinite` test: `some` of the finite value, else `none`. -/
def metaNumber : MetaVal → Option ℚ
  | .num q => some q
  | .numStr q => some q
  | .nonFinite => none

/-- A metadata map (`Record<string, unknown>` in the source), restricted to
the shape the numeric readers can observe. -/
abbrev Metadata := List (String × MetaVal)

/-- Key lookup in a metadata map; `none` also covers a key that is present
with value `null`/`undefined` (those take the same early-return branch). -/
def metaGet (m : Metadata) (key : String) : Option MetaVal :=
  m.lookup key

/-! ## polling-config.ts -/

def DEFAULT_INTERVAL_SECONDS : ℚ := 60
def MIN_INTERVAL_SECONDS : ℚ := 15
def MAX_INTERVAL_SECONDS : ℚ := 600

def PER_CONFIG_POLL_INTERVAL_MIN : ℚ := 15
def PER_CONFIG_POLL_INTERVAL_MAX : ℚ := 3600

def DEFAULT_CHECK_CONCURRENCY : ℚ := 5
def MIN_CHECK_CONCURRENCY : ℚ := 1
def MAX_CHECK_CONCURRENCY : ℚ := 20

/-- `parseIntervalSeconds`: `Number(process.env.CHECK_POLL_INTERVAL_SECONDS)`
kept when finite and positive, else the default.  The env var is passed in as
an already-converted `Option MetaVal` (absent variable ⇒ `none`). -/
def parseIntervalSeconds (env : Option MetaVal) : ℚ :=
  match env.bind metaNumber with
  | some parsed => if 0 < parsed then parsed else DEFAULT_INTERVAL_SECONDS
  | none => DEFAULT_INTERVAL_SECONDS

/-- `getPollingIntervalSeconds`: the parsed value clamped to [15, 600]. -/
def getPollingIntervalSeconds (env : Option MetaVal) : ℚ :=
  max MIN_INTERVAL_SECONDS (min MAX_INTERVAL_SECONDS (parseIntervalSeconds env))

def getPollingIntervalMs (env : Option MetaVal) : ℚ :=
  getPollingIntervalSeconds env * 1000

/-- `getConfigPollIntervalSeconds`: per-config override from
`metadata.poll_interval_seconds`; `none` when missing, not finite, or out of
the [15, 3600] range. -/
def getConfigPollIntervalSeconds (metadata : Option Metadata) : Option ℚ :=
  match metadata with
  | none => none
  | some m =>
    match metaGet m "poll_interval_seconds" with
    | none => none
    | some raw =>
      match metaNumber raw with
      | none => none
      | some value =>
        if value < PER_CONFIG_POLL_INTERVAL_MIN ∨ PER_CONFIG_POLL_INTERVAL_MAX < value then
          none
        else
          some value

/-- `getEffectivePollIntervalMs`: the custom per-config interval when present
and in range, else the global value. -/
def getEffectivePollIntervalMs (env : Option MetaVal) (metadata : Option Metadata) : ℚ :=
  match getConfigPollIntervalSeconds metadata with
  | some custom => custom * 1000
  | none => getPollingIntervalMs env

/-- `parseCheckConcurrency`: `Number(process.env.CHECK_CONCURRENCY)` kept when
finite and positive, else the default 5. -/
def parseCheckConcurrency (env : Option MetaVal) : ℚ :=
  match env.bind metaNumber with
  | some parsed => if 0 < parsed then parsed else DEFAULT_CHECK_CONCURRENCY
  | none => DEFAULT_CHECK_CONCURRENCY

/-- `getCheckConcurrency`: the parsed value clamped to [1, 20]. -/
def getCheckConcurrency (env : Option MetaVal) : ℚ :=
  max MIN_CHECK_CONCURRENCY (min MAX_CHECK_CONCURRENCY (parseCheckConcurrency env))

/-! ## Check outcomes (lib/types/check.ts) -/

/-- The health-status state set (the current `HealthStatus` union used by the
scheduler's status counters and the providers). -/
inductive HealthStatus where
  | operational
  | degraded
  | failed
  | validation_failed
  | maintenance
  | error
deriving DecidableEq, Repr

/-- A `CheckResult`.  The source's `type` field is named `providerType` here;
`checkedAt` is an ISO-8601 string in the source and is modelled by its
epoch-millisecond value, which is how every consumer compares it
(`new Date(checkedAt).getTime()`). -/
structure CheckResult where
  id : String := ""
  name : String := ""
  providerType : String := ""
  endpoint : String := ""
  model : String := ""
  status : HealthStatus
  latencyMs : Option Int := none
  pingLatencyMs : Option Int := none
  checkedAt : Int := 0
  message : String := ""
  groupName : Option String := none
deriving DecidableEq, Repr

/-! ## Case-insensitive substring matching

The retry and error classifiers test messages against the regexes
`/request was aborted\.?/i` and `/request was aborted|timeout/i`; both are
plain case-insensitive substring tests. -/

/-- The lower-cased code points of a string.  ASCII-only lowering: the regex
literals are pure ASCII, and a non-ASCII character can never match an ASCII
pattern character whether lowered or not, so this is equivalent to the
JS case-insensitive flag for these patterns. -/
def lowerCodes (s : String) : List Nat :=
  s.toList.map fun c => if 65 ≤ c.toNat ∧ c.toNat ≤ 90 then c.toNat + 32 else c.toNat

/-- Whether `needle` occurs at the head of `hay`. -/
def charsMatchAt : List Nat → List Nat → Bool
  | [], _ => true
  | _ :: _, [] => false
  | a :: as, b :: bs => a == b && charsMatchAt as bs

/-- Whether `needle` occurs anywhere in the code-point list. -/
def charsHaveSub (needle : List Nat) : List Nat → Bool
  | [] => charsMatchAt needle []
  | b :: bs => charsMatchAt needle (b :: bs) || charsHaveSub needle bs

/-- Case-insensitive substring test `pat` against `s` (`pat` is given in
lower case, as the regex literals are). -/
def testCI (pat : String) (s : String) : Bool :=
  charsHaveSub (lowerCodes pat) (lowerCodes s)

/-! ## Errors crossing the probe boundary -/

/-- A JS error as the probe code observes it.  `nameIsAbortError` is
`error.name === "AbortError"`; `isAPIUserAbortError` the
`instanceof APIUserAbortError` test; `responseBodyMessage` is the result of
`extractMessageFromBody` on `responseBody` (`none` when the body is absent or
the `"message":"..."` regex does not match). -/
structure JsError where
  nameIsAbortError : Bool
  isAPIUserAbortError : Bool := false
  message : String
  statusCode : Option Int := none
  responseBodyMessage : Option String := none
deriving DecidableEq, Repr

/-- ai-sdk-check.ts `isTimeoutError`: AbortError name, or message matching
`/request was aborted|timeout/i`. -/
def isTimeoutError (e : JsError) : Bool :=
  e.nameIsAbortError || testCI "request was aborted" e.message || testCI "timeout" e.message

/-- ai-sdk-check.ts `getErrorMessage`. -/
def aiSdkGetErrorMessage (e : JsError) : String :=
  if isTimeoutError e then "请求超时"
  else
    match e.responseBodyMessage with
    | some extracted =>
      match e.statusCode with
      | some c => "[" ++ toString c ++ "] " ++ extracted
      | none => extracted
    | none =>
      if e.message = "" then "未知错误"
      else
        match e.statusCode with
        | some c => "[" ++ toString c ++ "] " ++ e.message
        | none => e.message

/-- openai.ts / gemini.ts `isAbortLikeError`: AbortError name,
`APIUserAbortError` instance, or message matching `/request was aborted/i`. -/
def isAbortLikeError (e : JsError) : Bool :=
  e.nameIsAbortError || e.isAPIUserAbortError || testCI "request was aborted" e.message

/-- openai.ts `getOpenAIErrorMessage`. -/
def getOpenAIErrorMessage (e : JsError) : String :=
  if isAbortLikeError e then "请求超时"
  else if e.message = "" then "未知错误" else e.message

/-- gemini.ts `getGeminiErrorMessage` (same body as the OpenAI one). -/
def getGeminiErrorMessage (e : JsError) : String :=
  if isAbortLikeError e then "请求超时"
  else if e.message = "" then "未知错误" else e.message

/-! ## ai-sdk-check.ts: numeric metadata configuration -/

def DEFAULT_TIMEOUT_MS : ℚ := 45000
def DEGRADED_THRESHOLD_MS : ℚ := 6000
def TIMEOUT_MS_MIN : ℚ := 1000
def TIMEOUT_MS_MAX : ℚ := 300000
def DEGRADED_THRESHOLD_MS_MIN : ℚ := 100
def DEGRADED_THRESHOLD_MS_MAX : ℚ := 120000

/-- `getNumericConfig(metadata, key, defaultValue, min, max)`: the default on
a missing key or non-finite conversion, the default (not a clamp) when the
value is outside [mn, mx], else the value itself. -/
def getNumericConfig (metadata : Option Metadata) (key : String)
    (defaultValue mn mx : ℚ) : ℚ :=
  match metadata with
  | none => defaultValue
  | some m =>
    match metaGet m key with
    | none => defaultValue
    | some raw =>
      match metaNumber raw with
      | none => defaultValue
      | some value => if value < mn ∨ mx < value then defaultValue else value

/-- The `timeoutMs` read at the top of `checkWithAiSdk`. -/
def resolveTimeoutMs (metadata : Option Metadata) : ℚ :=
  getNumericConfig metadata "timeout_ms" DEFAULT_TIMEOUT_MS TIMEOUT_MS_MIN TIMEOUT_MS_MAX

/-- The `degradedThresholdMs` read at the top of `checkWithAiSdk`. -/
def resolveDegradedThresholdMs (metadata : Option Metadata) : ℚ :=
  getNumericConfig metadata "degraded_threshold_ms" DEGRADED_THRESHOLD_MS
    DEGRADED_THRESHOLD_MS_MIN DEGRADED_THRESHOLD_MS_MAX

/-! ## Probe strategies -/

/-- A monitored-target configuration row as the core sees it
(`loadProviderConfigsFromDB` only returns enabled rows, so any config list a
theorem below quantifies over is already the enabled set).  The credential
and custom-header fields are omitted: no claim observes them. -/
structure ProviderConfig where
  id : String
  name : String
  providerType : String := ""
  endpoint : String := ""
  model : String := ""
  metadata : Option Metadata := none
  is_maintenance : Bool := false
deriving DecidableEq, Repr

/-- `buildCheckResult` of ai-sdk-check.ts: copies the config's display fields
and fills the classification. -/
def buildCheckResult (id name providerType endpoint model : String)
    (pingLatencyMs : Option Int) (checkedAt : Int) (status : HealthStatus)
    (latencyMs : Option Int) (message : String) : CheckResult :=
  { id := id, name := name, providerType := providerType, endpoint := endpoint,
    model := model, status := status, latencyMs := latencyMs,
    pingLatencyMs := pingLatencyMs, checkedAt := checkedAt, message := message }

/-- The `!collectedResponse.trim()` emptiness test: a string trims to empty
exactly when every character is whitespace. -/
def isBlankResponse (text : String) : Bool :=
  text.toList.all fun c => c.isWhitespace

/-- How the `streamText` interaction of `checkWithAiSdk` ends:
`collected text streamError` means the `for await` loop over `textStream` ran
to completion having accumulated `text`, with `streamError` the value the
`onError` callback captured (if any); `thrown e` means the loop (or the model
construction) raised, e.g. the AbortError fired by the `timeoutMs` timer. -/
inductive StreamOutcome where
  | collected (text : String) (streamError : Option JsError)
  | thrown (e : JsError)
deriving DecidableEq, Repr

/-- `checkWithAiSdk`, with the network interaction abstracted into
`outcome` and the elapsed wall clock into `elapsedMs`.  `valid` and
`extractedNumbers` are what `validateResponse` (challenge.ts, the challenge
validator collaborator) returned for the collected text, and
`expectedAnswer` the challenge's expected answer. -/
def checkWithAiSdkModel (config : ProviderConfig) (endpoint : String)
    (pingLatencyMs : Option Int) (checkedAt : Int) (outcome : StreamOutcome)
    (elapsedMs : Int) (valid : Bool) (expectedAnswer : String)
    (extractedNumbers : List Int) : CheckResult :=
  let degradedThresholdMs := resolveDegradedThresholdMs config.metadata
  let build := buildCheckResult config.id config.name config.providerType endpoint
    config.model pingLatencyMs checkedAt
  match outcome with
  | .thrown e => build .error none (aiSdkGetErrorMessage e)
  | .collected text streamError =>
    let latencyMs := elapsedMs
    match streamError with
    | some e => build .error (some latencyMs) (aiSdkGetErrorMessage e)
    | none =>
      if isBlankResponse text then build .failed (some latencyMs) "回复为空"
      else if valid = false then
        let actualNumbers :=
          if extractedNumbers.isEmpty then "(无数字)"
          else String.intercalate ", " (extractedNumbers.map toString)
        build .validation_failed (some latencyMs)
          ("回复验证失败: 期望 " ++ expectedAnswer ++ ", 实际: " ++ actualNumbers)
      else if (elapsedMs : ℚ) ≤ degradedThresholdMs then
        build .operational (some latencyMs) ("验证通过 (" ++ toString latencyMs ++ "ms)")
      else
        build .degraded (some latencyMs)
          ("响应成功但耗时 " ++ toString latencyMs ++ "ms (阈值: " ++
            toString degradedThresholdMs.num ++ "ms)")

/-- How the `fetch` of `runStreamCheck` (stream-check.ts) ends:
`httpError` is the `!response.ok` branch (`bodyMessage` the result of
`extractMessage` on the error body), `streamed` means `parseStream` ran to
completion, `thrown e` means the fetch or stream read raised (e.g. the
AbortError fired by the timeout timer). -/
inductive FetchOutcome where
  | httpError (statusCode : Int) (bodyMessage : Option String)
  | streamed
  | thrown (e : JsError)
deriving DecidableEq, Repr

/-- `runStreamCheck` of stream-check.ts. -/
def runStreamCheckModel (config : ProviderConfig) (displayEndpoint : String)
    (checkedAt : Int) (outcome : FetchOutcome) (elapsedMs : Int) : CheckResult :=
  match outcome with
  | .httpError statusCode bodyMessage =>
    { id := config.id, name := config.name, providerType := config.providerType,
      endpoint := displayEndpoint, model := config.model, status := .failed,
      latencyMs := some elapsedMs, checkedAt := checkedAt,
      message := bodyMessage.getD ("HTTP " ++ toString statusCode) }
  | .streamed =>
    let status : HealthStatus :=
      if (elapsedMs : ℚ) ≤ DEGRADED_THRESHOLD_MS then .operational else .degraded
    { id := config.id, name := config.name, providerType := config.providerType,
      endpoint := displayEndpoint, model := config.model, status := status,
      latencyMs := some elapsedMs, checkedAt := checkedAt,
      message :=
        if (elapsedMs : ℚ) ≤ DEGRADED_THRESHOLD_MS then
          "流式响应正常 (" ++ toString elapsedMs ++ "ms)"
        else "响应成功但耗时 " ++ toString elapsedMs ++ "ms" }
  | .thrown e =>
    { id := config.id, name := config.name, providerType := config.providerType,
      endpoint := displayEndpoint, model := config.model, status := .failed,
      latencyMs := none, checkedAt := checkedAt,
      message := if e.nameIsAbortError then "请求超时" else
        (if e.message = "" then "未知错误" else e.message) }

/-- How the SDK streaming call of `checkOpenAI` / `checkGemini` ends:
`firstChunk` means the first chunk (or first Responses-API event) arrived and
the stream was closed; `thrown e` means the call raised. -/
inductive SdkStreamOutcome where
  | firstChunk
  | thrown (e : JsError)
deriving DecidableEq, Repr

/-- `checkOpenAI` of openai.ts (the Chat Completions path; the
`checkOpenAIResponses` path classifies identically). -/
def checkOpenAIModel (config : ProviderConfig) (displayEndpoint : String)
    (pingLatencyMs : Option Int) (checkedAt : Int) (outcome : SdkStreamOutcome)
    (elapsedMs : Int) : CheckResult :=
  match outcome with
  | .firstChunk =>
    let status : HealthStatus :=
      if (elapsedMs : ℚ) ≤ DEGRADED_THRESHOLD_MS then .operational else .degraded
    { id := config.id, name := config.name, providerType := config.providerType,
      endpoint := displayEndpoint, model := config.model, status := status,
      latencyMs := some elapsedMs, pingLatencyMs := pingLatencyMs,
      checkedAt := checkedAt,
      message :=
        if (elapsedMs : ℚ) ≤ DEGRADED_THRESHOLD_MS then
          "流式响应正常 (" ++ toString elapsedMs ++ "ms)"
        else "响应成功但耗时 " ++ toString elapsedMs ++ "ms" }
  | .thrown e =>
    { id := config.id, name := config.name, providerType := config.providerType,
      endpoint := displayEndpoint, model := config.model, status := .failed,
      latencyMs := none, pingLatencyMs := pingLatencyMs, checkedAt := checkedAt,
      message := getOpenAIErrorMessage e }

/-- `checkGemini` of gemini.ts (same structure as `checkOpenAI`). -/
def checkGeminiModel (config : ProviderConfig) (displayEndpoint : String)
    (pingLatencyMs : Option Int) (checkedAt : Int) (outcome : SdkStreamOutcome)
    (elapsedMs : Int) : CheckResult :=
  match outcome with
  | .firstChunk =>
    let status : HealthStatus :=
      if (elapsedMs : ℚ) ≤ DEGRADED_THRESHOLD_MS then .operational else .degraded
    { id := config.id, name := config.name, providerType := config.providerType,
      endpoint := displayEndpoint, model := config.model, status := status,
      latencyMs := some elapsedMs, pingLatencyMs := pingLatencyMs,
      checkedAt := checkedAt,
      message :=
        if (elapsedMs : ℚ) ≤ DEGRADED_THRESHOLD_MS then
          "流式响应正常 (" ++ toString elapsedMs ++ "ms)"
        else "响应成功但耗时 " ++ toString elapsedMs ++ "ms" }
  | .thrown e =>
    { id := config.id, name := config.name, providerType := config.providerType,
      endpoint := displayEndpoint, model := config.model, status := .failed,
      latencyMs := none, pingLatencyMs := pingLatencyMs, checkedAt := checkedAt,
      message := getGeminiErrorMessage e }

/-! ## poller-lease.ts -/

/-- The singleton `check_poller_leases` row (the `lease_key` column is the
constant "poller" and is omitted). -/
structure Lease where
  leaderId : Option String
  leaseExpiresAt : Int
  updatedAt : Int
deriving DecidableEq, Repr

/-- `tryAcquirePollerLease`: conditional UPDATE setting
`leader_id = nodeId, lease_expires_at = expiresAt, updated_at = now`,
guarded by `lease_expires_at < now`.  Returns whether a row was updated
(`data.length > 0`), and the row afterwards. -/
def tryAcquirePollerLease (nodeId : String) (now expiresAt : Int) (l : Lease) :
    Bool × Lease :=
  if l.leaseExpiresAt < now then
    (true, { leaderId := some nodeId, leaseExpiresAt := expiresAt, updatedAt := now })
  else
    (false, l)

/-- `tryRenewPollerLease`: conditional UPDATE extending
`lease_expires_at = expiresAt, updated_at = now`, guarded by
`leader_id = nodeId AND lease_expires_at > now`. -/
def tryRenewPollerLease (nodeId : String) (now expiresAt : Int) (l : Lease) :
    Bool × Lease :=
  if l.leaderId = some nodeId ∧ now < l.leaseExpiresAt then
    (true, { l with leaseExpiresAt := expiresAt, updatedAt := now })
  else
    (false, l)

/-- Modelled from the spec: the combinator that issues the acquire/renew
updates (`ensurePollerLeadership` in poller-leadership.ts) is not among the
sources; §4.1 gives its contract `tryAcquireOrRenew(nodeId, now, ttl)`.
Because the two conditional updates carry their own mutually exclusive SQL
guards (`lease_expires_at < now` versus `lease_expires_at > now`), issuing
the acquire first and the renew only on failure yields the same observable
result as any other composition of the two. -/
def tryAcquireOrRenew (nodeId : String) (now expiresAt : Int) (l : Lease) :
    Bool × Lease :=
  match tryAcquirePollerLease nodeId now expiresAt l with
  | (true, l1) => (true, l1)
  | (false, _) => tryRenewPollerLease nodeId now expiresAt l

/-- A set of concurrent `tryAcquireOrRenew` calls: the database serialises the
conditional updates, so the calls are applied in some sequence against the
shared row.  Returns the per-call results in order and the final row. -/
def runLeaseCalls (now expiresAt : Int) : List String → Lease → List Bool × Lease
  | [], l => ([], l)
  | n :: rest, l =>
    let step := tryAcquireOrRenew n now expiresAt l
    let tail := runLeaseCalls now expiresAt rest step.2
    (step.1 :: tail.1, tail.2)

/-! ## global-state.ts and poller.ts: last-checked store and due filter -/

/-- The `__CHECK_CX_CONFIG_LAST_CHECKED__` store: per-config last check
completion timestamp (ms); absent key reads as 0 via `?? 0`. -/
def getConfigLastCheckedAt (store : String → Option ℚ) (configId : String) : ℚ :=
  (store configId).getD 0

/-- `filterDueConfigs`: keep a config when it has never been checked
(`lastChecked === 0`) or `now - lastChecked >= intervalMs`. -/
def filterDueConfigs (env : Option MetaVal) (store : String → Option ℚ)
    (configs : List ProviderConfig) (now : ℚ) : List ProviderConfig :=
  configs.filter fun cfg =>
    let intervalMs := getEffectivePollIntervalMs env cfg.metadata
    let lastChecked := getConfigLastCheckedAt store cfg.id
    decide (lastChecked = 0) || decide (intervalMs ≤ now - lastChecked)

/-- The tick pipeline up to the due filter: `tick` first drops
maintenance-flagged configs (`activeConfigs`), then applies
`filterDueConfigs` at the single captured `startedAt`. -/
def tickDueConfigs (env : Option MetaVal) (store : String → Option ℚ)
    (configs : List ProviderConfig) (now : ℚ) : List ProviderConfig :=
  filterDueConfigs env store (configs.filter fun cfg => !cfg.is_maintenance) now

/-! ## Theorems: C1 -/

/-- All-fail lemma: once the lease is unexpired and owned by nobody in the
remaining call list, every remaining call fails and leaves the row alone. -/
theorem runLeaseCalls_all_false (now expiresAt : Int) (nodes : List String) (l : Lease)
    (hnotexp : ¬ l.leaseExpiresAt < now)
    (howner : ∀ n ∈ nodes, l.leaderId ≠ some n) :
    runLeaseCalls now expiresAt nodes l = (List.replicate nodes.length false, l) := by
  induction nodes with
  | nil => simp [runLeaseCalls]
  | cons n rest ih =>
    have hstep : tryAcquireOrRenew n now expiresAt l = (false, l) := by
      have hown : l.leaderId ≠ some n := howner n (List.mem_cons_self n rest)
      simp [tryAcquireOrRenew, tryAcquirePollerLease, tryRenewPollerLease, hnotexp, hown]
    have hrest : ∀ m ∈ rest, l.leaderId ≠ some m := fun m hm =>
      howner m (List.mem_cons_of_mem n hm)
    simp [runLeaseCalls, hstep, ih hrest, List.replicate_succ]

/-- C1: for any set of concurrent `tryAcquireOrRenew` calls from distinct node
ids against a lease whose expiry is in the past, exactly one call observes
leadership for the resulting expiry window; acquisition succeeds exactly under
the guard `lease_expires_at < now`, and renewal exactly under
`leader_id = nodeId AND lease_expires_at > now` — hence a single (non-expired)
owner results. -/
theorem lease_mutual_exclusion (nodes : List String) (now expiresAt : Int) (l : Lease)
    (hexp : l.leaseExpiresAt < now) (hwin : now ≤ expiresAt)
    (hne : nodes ≠ []) (hnodup : nodes.Nodup) :
    (runLeaseCalls now expiresAt nodes l).1.count true = 1 ∧
    (∀ node (l2 : Lease),
      (tryAcquirePollerLease node now expiresAt l2).1 = true ↔ l2.leaseExpiresAt < now) ∧
    (∀ node (l2 : Lease),
      (tryRenewPollerLease node now expiresAt l2).1 = true ↔
        (l2.leaderId = some node ∧ now < l2.leaseExpiresAt)) := by
  refine ⟨?_, ?_, ?_⟩
  · match nodes, hne with
    | n :: rest, _ =>
      have hstep : tryAcquireOrRenew n now expiresAt l =
          (true, { leaderId := some n, leaseExpiresAt := expiresAt, updatedAt := now }) := by
        simp [tryAcquireOrRenew, tryAcquirePollerLease, hexp]
      have hnotexp : ¬ (expiresAt < now) := not_lt.mpr hwin
      have hnmem : n ∉ rest := (List.nodup_cons.mp hnodup).1
      have howner : ∀ m ∈ rest,
          ({ leaderId := some n, leaseExpiresAt := expiresAt, updatedAt := now } : Lease).leaderId
            ≠ some m := by
        intro m hm hcontra
        simp only [Option.some.injEq] at hcontra
        exact hnmem (hcontra ▸ hm)
      have hrest := runLeaseCalls_all_false now expiresAt rest
        { leaderId := some n, leaseExpiresAt := expiresAt, updatedAt := now } hnotexp howner
      simp [runLeaseCalls, hstep, hrest, List.count_replicate]
  · intro node l2
    by_cases h : l2.leaseExpiresAt < now <;> simp [tryAcquirePollerLease, h]
  · intro node l2
    by_cases h : l2.leaderId = some node ∧ now < l2.leaseExpiresAt <;>
      simp [tryRenewPollerLease, h]

/-- Witness for C1 at a concrete expired lease and two nodes. -/
theorem lease_mutual_exclusion_witness :
    (runLeaseCalls 10 70 ["a", "b"] { leaderId := none, leaseExpiresAt := 0, updatedAt := 0 }).1.count true = 1 :=
  (lease_mutual_exclusion ["a", "b"] 10 70
    { leaderId := none, leaseExpiresAt := 0, updatedAt := 0 }
    (by decide) (by decide) (by decide) (by decide)).1

/-! ## Theorems: C2 -/

/-- C2: an enabled, non-maintenance target with last-checked timestamp T and
effective interval I is selected by the due filter exactly when it has never
been checked (T = 0) or `now ≥ T + I`; in particular it is not selected while
`now < T + I` (for a target that has been checked before). -/
theorem due_filter_correct (env : Option MetaVal) (store : String → Option ℚ)
    (configs : List ProviderConfig) (cfg : ProviderConfig) (now : ℚ)
    (hmem : cfg ∈ configs) (hmaint : cfg.is_maintenance = false) :
    (cfg ∈ tickDueConfigs env store configs now ↔
      (getConfigLastCheckedAt store cfg.id = 0 ∨
        getConfigLastCheckedAt store cfg.id + getEffectivePollIntervalMs env cfg.metadata ≤ now)) := by
  unfold tickDueConfigs filterDueConfigs
  rw [List.mem_filter, List.mem_filter]
  constructor
  · rintro ⟨-, hdue⟩
    rcases Bool.or_eq_true_iff.mp hdue with h | h
    · exact Or.inl (of_decide_eq_true h)
    · exact Or.inr (by linarith [of_decide_eq_true h])
  · intro h
    refine ⟨⟨hmem, by simp [hmaint]⟩, ?_⟩
    rcases h with h | h
    · exact Bool.or_eq_true_iff.mpr (Or.inl (decide_eq_true h))
    · exact Bool.or_eq_true_iff.mpr (Or.inr (decide_eq_true (by linarith)))

/-- Witness for C2: a target with a 20-second override, last checked at
t = 100000, is due at now = 120000 (= T + I) and not due at 119999. -/
theorem due_filter_correct_witness :
    (let cfg : ProviderConfig :=
      { id := "c1", name := "m", metadata := some [("poll_interval_seconds", MetaVal.num 20)],
        is_maintenance := false };
    let store : String → Option ℚ := fun _ => some 100000;
    (cfg ∈ tickDueConfigs none store [cfg] 120000) ∧
      ¬ (cfg ∈ tickDueConfigs none store [cfg] 119999)) := by
  refine ⟨?_, ?_⟩
  · exact (due_filter_correct none _ _ _ 120000 (List.mem_singleton.mpr rfl) rfl).mpr
      (Or.inr (by norm_num [getConfigLastCheckedAt, getEffectivePollIntervalMs,
        getConfigPollIntervalSeconds, metaGet, metaNumber, PER_CONFIG_POLL_INTERVAL_MIN,
        PER_CONFIG_POLL_INTERVAL_MAX, List.lookup]))
  · intro hdue
    have := (due_filter_correct none _ _ _ 119999 (List.mem_singleton.mpr rfl) rfl).mp hdue
    rcases this with h | h
    · norm_num [getConfigLastCheckedAt] at h
    · norm_num [getConfigLastCheckedAt, getEffectivePollIntervalMs,
        getConfigPollIntervalSeconds, metaGet, metaNumber, PER_CONFIG_POLL_INTERVAL_MIN,
        PER_CONFIG_POLL_INTERVAL_MAX, List.lookup] at h

/-! ## Theorems: C3 -/

/-- C3: a probe that succeeds and passes validation classifies as
`operational` when the measured latency is at most the degraded threshold
(including exact equality) and as `degraded` when it is strictly greater —
both in the unified AI-SDK check (against the resolved per-target threshold)
and in the generic stream check (against the 6000 ms constant). -/
theorem status_boundary (config : ProviderConfig) (endpoint : String)
    (ping : Option Int) (checkedAt : Int) (text expectedAnswer : String)
    (nums : List Int) (elapsedMs : Int) (htext : isBlankResponse text = false) :
    ((elapsedMs : ℚ) ≤ resolveDegradedThresholdMs config.metadata →
      (checkWithAiSdkModel config endpoint ping checkedAt (.collected text none)
        elapsedMs true expectedAnswer nums).status = .operational) ∧
    (resolveDegradedThresholdMs config.metadata < (elapsedMs : ℚ) →
      (checkWithAiSdkModel config endpoint ping checkedAt (.collected text none)
        elapsedMs true expectedAnswer nums).status = .degraded) ∧
    ((elapsedMs : ℚ) ≤ DEGRADED_THRESHOLD_MS →
      (runStreamCheckModel config endpoint checkedAt .streamed elapsedMs).status
        = .operational) ∧
    (DEGRADED_THRESHOLD_MS < (elapsedMs : ℚ) →
      (runStreamCheckModel config endpoint checkedAt .streamed elapsedMs).status
        = .degraded) := by
  refine ⟨?_, ?_, ?_, ?_⟩
  · intro h
    simp [checkWithAiSdkModel, buildCheckResult, htext, h]
  · intro h
    simp [checkWithAiSdkModel, buildCheckResult, htext, not_le.mpr h]
  · intro h
    simp [runStreamCheckModel, h]
  · intro h
    simp [runStreamCheckModel, not_le.mpr h]

/-- Witness for C3: with the default 6000 ms threshold, latency exactly 6000
is `operational` and 6001 is `degraded`. -/
theorem status_boundary_witness :
    (checkWithAiSdkModel { id := "c", name := "n" } "ep" none 0
      (.collected "42" none) 6000 true "42" []).status = HealthStatus.operational ∧
    (checkWithAiSdkModel { id := "c", name := "n" } "ep" none 0
      (.collected "42" none) 6001 true "42" []).status = HealthStatus.degraded := by
  constructor
  · exact (status_boundary { id := "c", name := "n" } "ep" none 0 "42" "42" [] 6000
      (by decide)).1
      (by norm_num [resolveDegradedThresholdMs, getNumericConfig, DEGRADED_THRESHOLD_MS])
  · exact (status_boundary { id := "c", name := "n" } "ep" none 0 "42" "42" [] 6001
      (by decide)).2.1
      (by norm_num [resolveDegradedThresholdMs, getNumericConfig, DEGRADED_THRESHOLD_MS])

/-! ## Theorems: C9 -/

theorem getNumericConfig_missing (m : Metadata) (key : String) (d mn mx : ℚ)
    (h : metaGet m key = none) : getNumericConfig (some m) key d mn mx = d := by
  simp [getNumericConfig, h]

theorem getNumericConfig_nonFinite (m : Metadata) (key : String) (d mn mx : ℚ)
    (h : metaGet m key = some .nonFinite) : getNumericConfig (some m) key d mn mx = d := by
  simp [getNumericConfig, h, metaNumber]

theorem getNumericConfig_inRange (m : Metadata) (key : String) (d mn mx v : ℚ)
    (mv : MetaVal) (h : metaGet m key = some mv) (hv : metaNumber mv = some v)
    (h1 : mn ≤ v) (h2 : v ≤ mx) : getNumericConfig (some m) key d mn mx = v := by
  simp only [getNumericConfig, h, hv]
  rw [if_neg]
  push_neg
  exact ⟨h1, h2⟩

theorem getNumericConfig_outOfRange (m : Metadata) (key : String) (d mn mx v : ℚ)
    (mv : MetaVal) (h : metaGet m key = some mv) (hv : metaNumber mv = some v)
    (hout : v < mn ∨ mx < v) : getNumericConfig (some m) key d mn mx = d := by
  simp only [getNumericConfig, h, hv]
  rw [if_pos hout]

/-- C9: a `timeout_ms` / `degraded_threshold_ms` override that is missing,
non-finite, or out of range falls back to the default (45000 ms / 6000 ms),
not to a clamped boundary value; an in-range value — whether a number or a
numeric string (`metaNumber mv = some v` covers both) — is used exactly. -/
theorem metadata_numeric_overrides (m : Metadata) (v : ℚ) (mv : MetaVal) :
    (resolveTimeoutMs none = 45000) ∧
    (resolveDegradedThresholdMs none = 6000) ∧
    (metaGet m "timeout_ms" = none → resolveTimeoutMs (some m) = 45000) ∧
    (metaGet m "timeout_ms" = some MetaVal.nonFinite → resolveTimeoutMs (some m) = 45000) ∧
    (metaGet m "timeout_ms" = some mv → metaNumber mv = some v →
      ((1000 ≤ v ∧ v ≤ 300000) → resolveTimeoutMs (some m) = v) ∧
      ((v < 1000 ∨ 300000 < v) → resolveTimeoutMs (some m) = 45000)) ∧
    (metaGet m "degraded_threshold_ms" = none → resolveDegradedThresholdMs (some m) = 6000) ∧
    (metaGet m "degraded_threshold_ms" = some MetaVal.nonFinite →
      resolveDegradedThresholdMs (some m) = 6000) ∧
    (metaGet m "degraded_threshold_ms" = some mv → metaNumber mv = some v →
      ((100 ≤ v ∧ v ≤ 120000) → resolveDegradedThresholdMs (some m) = v) ∧
      ((v < 100 ∨ 120000 < v) → resolveDegradedThresholdMs (some m) = 6000)) := by
  unfold resolveTimeoutMs resolveDegradedThresholdMs
  unfold DEFAULT_TIMEOUT_MS DEGRADED_THRESHOLD_MS TIMEOUT_MS_MIN TIMEOUT_MS_MAX
    DEGRADED_THRESHOLD_MS_MIN DEGRADED_THRESHOLD_MS_MAX
  refine ⟨rfl, rfl, ?_, ?_, ?_, ?_, ?_, ?_⟩
  · exact getNumericConfig_missing m _ _ _ _
  · exact getNumericConfig_nonFinite m _ _ _ _
  · intro h hv
    exact ⟨fun hr => getNumericConfig_inRange m _ _ _ _ v mv h hv hr.1 hr.2,
      fun hout => getNumericConfig_outOfRange m _ _ _ _ v mv h hv hout⟩
  · exact getNumericConfig_missing m _ _ _ _
  · exact getNumericConfig_nonFinite m _ _ _ _
  · intro h hv
    exact ⟨fun hr => getNumericConfig_inRange m _ _ _ _ v mv h hv hr.1 hr.2,
      fun hout => getNumericConfig_outOfRange m _ _ _ _ v mv h hv hout⟩

/-- Witness for C9: a numeric-string override "10000" is used exactly; an
out-of-range 500 ms timeout falls back to 45000 (not clamped to 1000); an
out-of-range 130000 threshold falls back to 6000 (not clamped to 120000). -/
theorem metadata_numeric_overrides_witness :
    resolveTimeoutMs (some [("timeout_ms", MetaVal.numStr 10000)]) = 10000 ∧
    resolveTimeoutMs (some [("timeout_ms", MetaVal.num 500)]) = 45000 ∧
    resolveDegradedThresholdMs (some [("degraded_threshold_ms", MetaVal.num 130000)]) = 6000 := by
  refine ⟨?_, ?_, ?_⟩
  · exact ((metadata_numeric_overrides [("timeout_ms", MetaVal.numStr 10000)] 10000
      (MetaVal.numStr 10000)).2.2.2.2.1 (by decide) rfl).1 (by norm_num)
  · exact ((metadata_numeric_overrides [("timeout_ms", MetaVal.num 500)] 500
      (MetaVal.num 500)).2.2.2.2.1 (by decide) rfl).2 (by norm_num)
  · exact ((metadata_numeric_overrides [("degraded_threshold_ms", MetaVal.num 130000)] 130000
      (MetaVal.num 130000)).2.2.2.2.2.2.2 (by decide) rfl).2 (by norm_num)

/-! ## Theorems: C7 -/

/-- C7 (code versus its own documentation): when the timeout's AbortError
surfaces, the per-vendor strategies (stream-check, openai, gemini) record
status `failed`, latencyMs `null` and the timeout message, but the unified
AI-SDK check records status `error` — not `failed` — even though its own
status table documents timeouts under `failed`.  Evaluated at the concrete
aborted probe. -/
theorem timeout_status_divergence :
    (runStreamCheckModel { id := "t1", name := "t1" } "ep" 0
      (.thrown { nameIsAbortError := true, message := "This operation was aborted" })
      15000).status = HealthStatus.failed ∧
    (runStreamCheckModel { id := "t1", name := "t1" } "ep" 0
      (.thrown { nameIsAbortError := true, message := "This operation was aborted" })
      15000).latencyMs = none ∧
    (runStreamCheckModel { id := "t1", name := "t1" } "ep" 0
      (.thrown { nameIsAbortError := true, message := "This operation was aborted" })
      15000).message = "请求超时" ∧
    (checkOpenAIModel { id := "t1", name := "t1" } "ep" none 0
      (.thrown { nameIsAbortError := true, message := "This operation was aborted" })
      45000).status = HealthStatus.failed ∧
    (checkOpenAIModel { id := "t1", name := "t1" } "ep" none 0
      (.thrown { nameIsAbortError := true, message := "This operation was aborted" })
      45000).latencyMs = none ∧
    (checkOpenAIModel { id := "t1", name := "t1" } "ep" none 0
      (.thrown { nameIsAbortError := true, message := "This operation was aborted" })
      45000).message = "请求超时" ∧
    (checkGeminiModel { id := "t1", name := "t1" } "ep" none 0
      (.thrown { nameIsAbortError := true, message := "This operation was aborted" })
      45000).status = HealthStatus.failed ∧
    (checkWithAiSdkModel { id := "t1", name := "t1" } "ep" none 0
      (.thrown { nameIsAbortError := true, message := "This operation was aborted" })
      45000 true "42" []).status = HealthStatus.error ∧
    (checkWithAiSdkModel { id := "t1", name := "t1" } "ep" none 0
      (.thrown { nameIsAbortError := true, message := "This operation was aborted" })
      45000 true "42" []).latencyMs = none ∧
    (checkWithAiSdkModel { id := "t1", name := "t1" } "ep" none 0
      (.thrown { nameIsAbortError := true, message := "This operation was aborted" })
      45000 true "42" []).message = "请求超时" := by
  refine ⟨rfl, rfl, rfl, rfl, rfl, rfl, rfl, rfl, rfl, rfl⟩

/-! ## providers/index.ts: abort retry and the confirmation pass -/

def MAX_REQUEST_ABORT_RETRIES : Nat := 1
def FAILURE_CONFIRM_RETRIES : Nat := 1

/-- `shouldRetryRequestAborted`: false on a missing/empty message, else the
`/request was aborted\.?/i` test. -/
def shouldRetryRequestAborted (message : String) : Bool :=
  if message = "" then false else testCI "request was aborted" message

/-- How one invocation of `checkProvider` ends: a returned `CheckResult`, or
an exception whose `getErrorMessage` rendering is `message`. -/
inductive AttemptOutcome where
  | res (r : CheckResult)
  | thrown (message : String)
deriving DecidableEq, Repr

/-- The result built in `checkWithRetry`'s catch branch. -/
def caughtFailureResult (config : ProviderConfig) (checkedAt : Int)
    (message : String) : CheckResult :=
  { id := config.id, name := config.name, providerType := config.providerType,
    endpoint := config.endpoint, model := config.model, status := .failed,
    latencyMs := none, pingLatencyMs := none, checkedAt := checkedAt,
    message := message }

/-- The `for (attempt = 0; attempt <= MAX_REQUEST_ABORT_RETRIES; ...)` loop
of `checkWithRetry`.  `probe attempt` is what `checkProvider` does on that
attempt; `retriesLeft` is `MAX_REQUEST_ABORT_RETRIES - attempt`, so the
`attempt < MAX_REQUEST_ABORT_RETRIES` conjunct of the retry conditions is
`retriesLeft > 0`.  Returns the recorded result and the number of attempts
actually made. -/
def checkWithRetryGo (config : ProviderConfig) (checkedAt : Int)
    (probe : Nat → AttemptOutcome) (attempt : Nat) :
    Nat → CheckResult × Nat
  | 0 =>
    match probe attempt with
    | .res r => (r, 1)
    | .thrown m => (caughtFailureResult config checkedAt m, 1)
  | retriesLeft + 1 =>
    match probe attempt with
    | .res r =>
      if r.status = .failed ∧ shouldRetryRequestAborted r.message then
        let rest := checkWithRetryGo config checkedAt probe (attempt + 1) retriesLeft
        (rest.1, rest.2 + 1)
      else (r, 1)
    | .thrown m =>
      if shouldRetryRequestAborted m then
        let rest := checkWithRetryGo config checkedAt probe (attempt + 1) retriesLeft
        (rest.1, rest.2 + 1)
      else (caughtFailureResult config checkedAt m, 1)

/-- `checkWithRetry`: the loop started at attempt 0 with one abort retry
available. -/
def checkWithRetry (config : ProviderConfig) (checkedAt : Int)
    (probe : Nat → AttemptOutcome) : CheckResult × Nat :=
  checkWithRetryGo config checkedAt probe 0 MAX_REQUEST_ABORT_RETRIES

/-- One entry of the in-progress batch of `runProviderChecks`: the config, its
current recorded result, and how many `checkWithRetry` invocations it has
received. -/
structure BatchEntry where
  config : ProviderConfig
  result : CheckResult
  calls : Nat
deriving DecidableEq, Repr

/-- The `for (attempt = 0; attempt < FAILURE_CONFIRM_RETRIES; ...)` loop of
`runProviderChecks`: stop when no entry is `failed`; otherwise re-run
`checkWithRetry` for exactly the failed entries (the `failedIndices`
write-back, expressed pointwise) and stop early when none remain failed. -/
def confirmLoop (checkedAt : Int) (behavior : ProviderConfig → Nat → AttemptOutcome) :
    Nat → List BatchEntry → List BatchEntry
  | 0, entries => entries
  | fuel + 1, entries =>
    if entries.all (fun e => !(e.result.status = .failed : Bool)) then entries
    else
      let retried := entries.map fun e =>
        if e.result.status = .failed then
          { e with result := (checkWithRetry e.config checkedAt (behavior e.config)).1,
                   calls := e.calls + 1 }
        else e
      if retried.all (fun e => !(e.result.status = .failed : Bool)) then retried
      else confirmLoop checkedAt behavior fuel retried

/-- `runProviderChecks`: `Promise.all` of `checkWithRetry` over the batch,
then the confirmation-retry loop.  The final `sort` by display name only
permutes the list (and `localeCompare` is locale-dependent), so it is omitted;
the properties below are stated via membership, which a permutation
preserves. -/
def runProviderChecksModel (checkedAt : Int)
    (behavior : ProviderConfig → Nat → AttemptOutcome)
    (configs : List ProviderConfig) : List BatchEntry :=
  confirmLoop checkedAt behavior FAILURE_CONFIRM_RETRIES
    (configs.map fun c => ⟨c, (checkWithRetry c checkedAt (behavior c)).1, 1⟩)

/-! ## Theorems: C4 -/

theorem confirmLoop_zero (checkedAt : Int)
    (behavior : ProviderConfig → Nat → AttemptOutcome) (entries : List BatchEntry) :
    confirmLoop checkedAt behavior 0 entries = entries := rfl

theorem confirmLoop_succ (checkedAt : Int)
    (behavior : ProviderConfig → Nat → AttemptOutcome) (fuel : Nat)
    (entries : List BatchEntry) :
    confirmLoop checkedAt behavior (fuel + 1) entries =
      (if entries.all (fun e => !(e.result.status = .failed : Bool)) then entries
      else
        if (entries.map fun e =>
            if e.result.status = .failed then
              { e with result := (checkWithRetry e.config checkedAt (behavior e.config)).1,
                       calls := e.calls + 1 }
            else e).all (fun e => !(e.result.status = .failed : Bool)) then
          entries.map fun e =>
            if e.result.status = .failed then
              { e with result := (checkWithRetry e.config checkedAt (behavior e.config)).1,
                       calls := e.calls + 1 }
            else e
        else
          confirmLoop checkedAt behavior fuel
            (entries.map fun e =>
              if e.result.status = .failed then
                { e with result := (checkWithRetry e.config checkedAt (behavior e.config)).1,
                         calls := e.calls + 1 }
              else e)) := rfl

/-- Attempt-count bound for the retry loop. -/
theorem checkWithRetryGo_le (config : ProviderConfig) (checkedAt : Int)
    (probe : Nat → AttemptOutcome) (attempt retriesLeft : Nat) :
    (checkWithRetryGo config checkedAt probe attempt retriesLeft).2 ≤ retriesLeft + 1 := by
  induction retriesLeft generalizing attempt with
  | zero =>
    cases h : probe attempt <;> simp [checkWithRetryGo, h]
  | succ n ih =>
    cases h : probe attempt with
    | res r =>
      by_cases hc : r.status = .failed ∧ shouldRetryRequestAborted r.message
      · simp only [checkWithRetryGo, h, if_pos hc]
        have := ih (attempt + 1)
        omega
      · simp [checkWithRetryGo, h, hc]
    | thrown m =>
      by_cases hc : shouldRetryRequestAborted m = true
      · simp only [checkWithRetryGo, h, if_pos hc]
        have := ih (attempt + 1)
        omega
      · simp [checkWithRetryGo, h, hc]

/-- C4: the abort-retry layer makes at most two attempts (initial plus one
immediate retry); a probe that always raises the transport "aborted"
signature uses exactly two attempts and is recorded `failed`; a probe whose
first attempt returns a result that does not carry the aborted signature
(e.g. a timeout, recorded with message "请求超时") — and in particular any
`validation_failed` result — is not retried by this layer; and in the full
batch every target whose first-pass result is still `failed` receives exactly
one additional confirmation `checkWithRetry` pass, targets that are not
`failed` receive none. -/
theorem abort_retry_bound (config : ProviderConfig) (checkedAt : Int)
    (probe : Nat → AttemptOutcome) (r : CheckResult) (m : String)
    (behavior : ProviderConfig → Nat → AttemptOutcome)
    (configs : List ProviderConfig) :
    ((checkWithRetry config checkedAt probe).2 ≤ 2) ∧
    ((∀ k, probe k = .thrown m) → shouldRetryRequestAborted m = true →
      checkWithRetry config checkedAt probe = (caughtFailureResult config checkedAt m, 2)) ∧
    ((∀ k, probe k = .res r) → r.status = .failed →
      shouldRetryRequestAborted r.message = true →
      checkWithRetry config checkedAt probe = (r, 2)) ∧
    (probe 0 = .res r → shouldRetryRequestAborted r.message = false →
      checkWithRetry config checkedAt probe = (r, 1)) ∧
    (probe 0 = .res r → r.status = .validation_failed →
      checkWithRetry config checkedAt probe = (r, 1)) ∧
    (∀ e ∈ runProviderChecksModel checkedAt behavior configs,
      e.calls =
        if (checkWithRetry e.config checkedAt (behavior e.config)).1.status = .failed
        then 2 else 1) := by
  refine ⟨?_, ?_, ?_, ?_, ?_, ?_⟩
  · exact checkWithRetryGo_le config checkedAt probe 0 MAX_REQUEST_ABORT_RETRIES
  · intro hall hab
    simp [checkWithRetry, MAX_REQUEST_ABORT_RETRIES, checkWithRetryGo, hall 0, hall 1, hab]
  · intro hall hst hab
    simp [checkWithRetry, MAX_REQUEST_ABORT_RETRIES, checkWithRetryGo, hall 0, hall 1,
      hst, hab]
  · intro h0 hab
    simp [checkWithRetry, MAX_REQUEST_ABORT_RETRIES, checkWithRetryGo, h0, hab]
  · intro h0 hst
    have : ¬ (r.status = HealthStatus.failed ∧ shouldRetryRequestAborted r.message = true) := by
      rintro ⟨hf, -⟩
      rw [hst] at hf
      exact HealthStatus.noConfusion hf
    simp only [checkWithRetry, MAX_REQUEST_ABORT_RETRIES, checkWithRetryGo, h0]
    rw [if_neg]
    simpa using this
  · intro e he
    unfold runProviderChecksModel at he
    rw [show FAILURE_CONFIRM_RETRIES = 0 + 1 from rfl, confirmLoop_succ,
      confirmLoop_zero, ite_self] at he
    set init := configs.map
      (fun c => (⟨c, (checkWithRetry c checkedAt (behavior c)).1, 1⟩ : BatchEntry)) with hinit
    by_cases hall : init.all (fun e => !(e.result.status = .failed : Bool))
    · rw [if_pos hall] at he
      have hne := List.all_eq_true.mp hall _ he
      rw [hinit] at he
      rcases List.mem_map.mp he with ⟨c, -, rfl⟩
      simp only [Bool.not_eq_true', decide_eq_false_iff_not] at hne
      simp [hne]
    · rw [if_neg hall] at he
      rw [hinit] at he
      rcases List.mem_map.mp he with ⟨e0, he0, rfl⟩
      rcases List.mem_map.mp he0 with ⟨c, -, rfl⟩
      by_cases hf : (checkWithRetry c checkedAt (behavior c)).1.status = .failed
      · simp [hf]
      · simp [hf]

/-- Witness for C4 at a concrete always-aborting probe: two attempts, result
recorded `failed`; and a timeout result is not retried. -/
theorem abort_retry_bound_witness :
    checkWithRetry { id := "c", name := "c" } 0
      (fun _ => .thrown "Request was aborted.") =
      (caughtFailureResult { id := "c", name := "c" } 0 "Request was aborted.", 2) ∧
    checkWithRetry { id := "c", name := "c" } 0
      (fun _ => .res { status := .failed, message := "请求超时" }) =
      ({ status := .failed, message := "请求超时" }, 1) := by
  constructor
  · exact (abort_retry_bound { id := "c", name := "c" } 0
      (fun _ => .thrown "Request was aborted.") { status := .failed } "Request was aborted."
      (fun _ _ => .thrown "") []).2.1 (fun _ => rfl) (by decide)
  · exact (abort_retry_bound { id := "c", name := "c" } 0
      (fun _ => .res { status := .failed, message := "请求超时" })
      { status := .failed, message := "请求超时" } ""
      (fun _ _ => .thrown "") []).2.2.2.1 rfl (by decide)

/-! ## Dashboard snapshot cache (dashboard-data module and global-state.ts)

The cached `HistorySnapshot` values themselves are irrelevant to the
scheduling claims, so a snapshot is represented by its key list.

`getPingCacheEntry` (global-state.ts) prunes the store on every call: an
entry whose `lastPingAt` is more than `PING_CACHE_TTL_MS` (10 minutes) in
the past is deleted from the store, and a missing entry is recreated as
`{ lastPingAt: 0 }`.  Deletion only unlinks the object from the store: a
caller already holding a reference keeps mutating its own object.  The model
therefore keeps a heap of every entry object ever created for the key under
consideration (`objs`, indexed by creation order) next to the store's
current binding for that key.  The size-based eviction (oldest-first above
`PING_CACHE_MAX_SIZE = 10` keys) can only fire when more than ten keys are
live; no claim involves more than one key, so it never fires here and is
omitted.  The world is instrumented with `nextToken` (identities for the
promises created by the refresh closure) and `batches` (how many probe
batches, i.e. `runProviderChecks` calls inside the in-flight closure, have
been started). -/

abbrev Snap := List String

def PING_CACHE_TTL_MS : Int := 600000

/-- A `PingCacheEntry` object: `{ lastPingAt, history?, inflight? }`. -/
structure PingCacheEntry where
  lastPingAt : Int
  history : Option Snap := none
  inflight : Option Nat := none
deriving DecidableEq, Repr

/-- The mutable state reachable from one cache key: the heap of entry
objects created for it, the store's current binding, and instrumentation. -/
structure CacheWorld where
  objs : List PingCacheEntry
  current : Option Nat
  nextToken : Nat
  batches : Nat
deriving DecidableEq, Repr

/-- The entry object at heap index `i`. -/
def entryAt (w : CacheWorld) (i : Nat) : PingCacheEntry :=
  w.objs.getD i { lastPingAt := 0 }

/-- `pruneCache` restricted to the key under consideration: delete the
store's binding when `now - entry.lastPingAt > PING_CACHE_TTL_MS`. -/
def pruneCacheStep (now : Int) (w : CacheWorld) : CacheWorld :=
  match w.current with
  | none => w
  | some i =>
    if PING_CACHE_TTL_MS < now - (entryAt w i).lastPingAt then { w with current := none }
    else w

/-- `getPingCacheEntry`: prune, then return the stored entry, creating
`{ lastPingAt: 0 }` when the key is unbound.  Returns the heap index the
caller captures as its `cacheEntry` reference. -/
def getPingCacheEntryStep (now : Int) (w : CacheWorld) : Nat × CacheWorld :=
  let w1 := pruneCacheStep now w
  match w1.current with
  | some i => (i, w1)
  | none =>
    (w1.objs.length,
      { w1 with objs := w1.objs ++ [{ lastPingAt := 0 }],
                current := some w1.objs.length })

/-- What one caller of `refreshHistory` observes. -/
inductive RefreshObs where
  | empty
  | cachedHit
  | joined (t : Nat)
  | started (t : Nat)
deriving DecidableEq, Repr

/-- The synchronous prefix of `refreshHistory` (dashboard-data module),
acting on the entry object `i` the caller captured earlier: an empty
allowed-id set returns `{}` at once; a cache entry younger than the poll
interval is returned as is; an existing in-flight promise is joined;
otherwise the refresh closure is started — it synchronously begins the probe
batch and the in-flight marker is set before the caller suspends, so the
whole branch is one atomic step on the single JS thread. -/
def refreshHistoryStepOn (i : Nat) (allowedNonempty : Bool)
    (now pollIntervalMs : Int) (w : CacheWorld) : RefreshObs × CacheWorld :=
  let e := entryAt w i
  if !allowedNonempty then (.empty, w)
  else if e.history.isSome && decide (now - e.lastPingAt < pollIntervalMs) then
    (.cachedHit, w)
  else
    match e.inflight with
    | some t => (.joined t, w)
    | none =>
      (.started w.nextToken,
        { w with objs := w.objs.set i { e with inflight := some w.nextToken },
                 nextToken := w.nextToken + 1, batches := w.batches + 1 })

/-- Completion of the in-flight closure `t` of entry object `i`: on success
it stores the new history and `lastPingAt` before resolving; in every case
the `finally` clears the in-flight marker when it still refers to this
promise. -/
def completeRefreshOn (i t : Nat) (ok : Bool) (result : Snap) (finishedAt : Int)
    (w : CacheWorld) : CacheWorld :=
  let e := entryAt w i
  let e1 := if ok then { e with history := some result, lastPingAt := finishedAt } else e
  let e2 : PingCacheEntry :=
    { e1 with inflight := if e1.inflight = some t then none else e1.inflight }
  { w with objs := w.objs.set i e2 }

/-- `n` concurrent `loadDashboardData` callers reaching the cache before any
in-flight computation completes: the single JS thread serialises their
synchronous sections, each caller first capturing its entry via the pruning
`getPingCacheEntry` and then running its `refreshHistory` prefix on that
captured object.  (The two sections of one caller are separated by an await
in the source, so other schedules interleave them; every schedule runs each
caller's pruning fetch before its refresh, which is all the theorems below
depend on.) -/
def runSharedCallers (allowedNonempty : Bool) (now pollIntervalMs : Int) :
    Nat → CacheWorld → List RefreshObs × CacheWorld
  | 0, w => ([], w)
  | n + 1, w =>
    let g := getPingCacheEntryStep now w
    let r := refreshHistoryStepOn g.1 allowedNonempty now pollIntervalMs g.2
    let rest := runSharedCallers allowedNonempty now pollIntervalMs n r.2
    (r.1 :: rest.1, rest.2)

/-- `RefreshMode` (the `options?.refreshMode ?? "missing"` default is applied
by the caller). -/
inductive RefreshMode where
  | always
  | missing
  | never
deriving DecidableEq, Repr

/-- One `loadDashboardData` call: `getPingCacheEntry(cacheKey)` runs
unconditionally before the mode dispatch; `always` then invokes
`refreshHistory` on the captured entry; `missing` invokes it only when some
targets exist and the filtered history read was empty; `never` keeps the
read as is.  `filteredHistoryKeys` are the keys of the initial
`readFilteredHistory()` result. -/
def loadDashboardDataStep (mode : RefreshMode) (allowedNonempty : Bool)
    (filteredHistoryKeys : Snap) (now pollIntervalMs : Int) (w : CacheWorld) :
    Option RefreshObs × CacheWorld :=
  let g := getPingCacheEntryStep now w
  match mode with
  | .always =>
    let r := refreshHistoryStepOn g.1 allowedNonempty now pollIntervalMs g.2
    (some r.1, r.2)
  | .missing =>
    if allowedNonempty && filteredHistoryKeys.isEmpty then
      let r := refreshHistoryStepOn g.1 allowedNonempty now pollIntervalMs g.2
      (some r.1, r.2)
    else (none, g.2)
  | .never => (none, g.2)

/-! ## Theorems: C5 -/

theorem getD_set_self {α : Type} (l : List α) (i : Nat) (e d : α)
    (h : i < l.length) : (l.set i e).getD i d = e := by
  induction l generalizing i with
  | nil => simp at h
  | cons a as ih =>
    cases i with
    | zero => simp
    | succ j =>
      simp only [List.set_cons_succ, List.getD_cons_succ]
      exact ih j (by simpa using h)

theorem getD_append_length {α : Type} (l : List α) (e d : α) :
    (l ++ [e]).getD l.length d = e := by
  induction l with
  | nil => simp
  | cons a as ih => simp [ih]

/-- Under the survival condition the pruning fetch is a no-op returning the
shared entry. -/
theorem getPingCacheEntryStep_noop (now : Int) (w : CacheWorld) (i : Nat)
    (hcur : w.current = some i)
    (hsurv : now - (entryAt w i).lastPingAt ≤ PING_CACHE_TTL_MS) :
    getPingCacheEntryStep now w = (i, w) := by
  simp [getPingCacheEntryStep, pruneCacheStep, hcur, not_lt.mpr hsurv]

theorem staleFreshFalse (e : PingCacheEntry) (now pollIntervalMs : Int)
    (hstale : e.history = none ∨ pollIntervalMs ≤ now - e.lastPingAt) :
    (e.history.isSome && decide (now - e.lastPingAt < pollIntervalMs)) = false := by
  rcases hstale with h | h
  · simp [h]
  · simp [not_lt.mpr h]

/-- Completion always clears the in-flight marker of the entry it ran on,
whether the refresh succeeded or failed. -/
theorem completeRefreshOn_clears (i t : Nat) (ok : Bool) (result : Snap)
    (finishedAt : Int) (w : CacheWorld) (hi : i < w.objs.length)
    (hin : (entryAt w i).inflight = some t) :
    (entryAt (completeRefreshOn i t ok result finishedAt w) i).inflight = none := by
  cases ok with
  | false =>
    show (entryAt { w with objs := (w.objs.set i
        { lastPingAt := (entryAt w i).lastPingAt, history := (entryAt w i).history,
          inflight := if (entryAt w i).inflight = some t then none
                      else (entryAt w i).inflight }) } i).inflight = none
    rw [hin, if_pos rfl]
    unfold entryAt
    rw [getD_set_self _ _ _ _ hi]
  | true =>
    show (entryAt { w with objs := (w.objs.set i
        { lastPingAt := finishedAt, history := some result,
          inflight := if (entryAt w i).inflight = some t then none
                      else (entryAt w i).inflight }) } i).inflight = none
    rw [hin, if_pos rfl]
    unfold entryAt
    rw [getD_set_self _ _ _ _ hi]

/-- Joining lemma: while a refresh is in flight on the shared surviving
entry and the entry is still stale, every further caller fetches that same
entry, joins the same promise, and changes nothing. -/
theorem runSharedCallers_joined (now pollIntervalMs : Int) (t i : Nat) (m : Nat)
    (w : CacheWorld) (hcur : w.current = some i)
    (hin : (entryAt w i).inflight = some t)
    (hsurv : now - (entryAt w i).lastPingAt ≤ PING_CACHE_TTL_MS)
    (hstale : (entryAt w i).history = none ∨
      pollIntervalMs ≤ now - (entryAt w i).lastPingAt) :
    runSharedCallers true now pollIntervalMs m w = (List.replicate m (.joined t), w) := by
  induction m with
  | zero => simp [runSharedCallers]
  | succ k ih =>
    have hget := getPingCacheEntryStep_noop now w i hcur hsurv
    have hstep : refreshHistoryStepOn i true now pollIntervalMs w = (.joined t, w) := by
      simp [refreshHistoryStepOn, staleFreshFalse _ _ _ hstale, hin]
    simp [runSharedCallers, hget, hstep, ih, List.replicate_succ]

/-- C5 counterexample: two concurrent callers against a cold cache (no entry
for the key).  Each caller's `getPingCacheEntry` prunes the other's
never-refreshed entry — `lastPingAt = 0` is always more than ten minutes in
the past — and creates a fresh object, so each caller starts its own probe
batch: two batches, not exactly one. -/
theorem single_flight_counterexample :
    (runSharedCallers true 1700000000000 60000 2
      { objs := [], current := none, nextToken := 0, batches := 0 }).2.batches = 2 ∧
    (runSharedCallers true 1700000000000 60000 2
      { objs := [], current := none, nextToken := 0, batches := 0 }).1 =
      [RefreshObs.started 0, RefreshObs.started 1] := by
  exact ⟨rfl, rfl⟩

/-- C5 (amended): single-flight holds for callers that share the cache
entry, i.e. whenever the entry survives the fetch-time prune because its
last successful refresh is within the ten-minute cache TTL: with such an
entry stale relative to the poll interval and nothing in flight, `n ≥ 1`
concurrent callers all obtain the same entry object, the first starts
exactly one probe batch, every other caller joins that same in-flight
promise, and completion of the promise — successful or not — clears the
in-flight marker.  A never-refreshed entry has `lastPingAt = 0` and is
pruned on every fetch, so cold-cache callers fall outside this guarantee
(see the counterexample). -/
theorem single_flight_shared_entry (n : Nat) (now pollIntervalMs : Int)
    (w : CacheWorld) (i : Nat) (hn : 1 ≤ n)
    (hcur : w.current = some i) (hi : i < w.objs.length)
    (hfree : (entryAt w i).inflight = none)
    (hsurv : now - (entryAt w i).lastPingAt ≤ PING_CACHE_TTL_MS)
    (hstale : (entryAt w i).history = none ∨
      pollIntervalMs ≤ now - (entryAt w i).lastPingAt) :
    (runSharedCallers true now pollIntervalMs n w).2.batches = w.batches + 1 ∧
    (runSharedCallers true now pollIntervalMs n w).1 =
      .started w.nextToken :: List.replicate (n - 1) (.joined w.nextToken) ∧
    (entryAt (runSharedCallers true now pollIntervalMs n w).2 i).inflight
      = some w.nextToken ∧
    (∀ ok result finishedAt,
      (entryAt (completeRefreshOn i w.nextToken ok result finishedAt
        (runSharedCallers true now pollIntervalMs n w).2) i).inflight = none) := by
  obtain ⟨m, rfl⟩ : ∃ m, n = m + 1 := ⟨n - 1, (Nat.succ_pred_eq_of_pos hn).symm⟩
  have hget := getPingCacheEntryStep_noop now w i hcur hsurv
  have hstep : refreshHistoryStepOn i true now pollIntervalMs w =
      (.started w.nextToken,
        { w with objs := w.objs.set i { entryAt w i with inflight := some w.nextToken },
                 nextToken := w.nextToken + 1, batches := w.batches + 1 }) := by
    simp [refreshHistoryStepOn, staleFreshFalse _ _ _ hstale, hfree]
  set w1 : CacheWorld :=
    { w with objs := w.objs.set i { entryAt w i with inflight := some w.nextToken },
             nextToken := w.nextToken + 1, batches := w.batches + 1 } with hw1
  have hw1entry : entryAt w1 i = { entryAt w i with inflight := some w.nextToken } := by
    simp only [hw1, entryAt]
    exact getD_set_self w.objs i _ _ hi
  have hrest := runSharedCallers_joined now pollIntervalMs w.nextToken i m w1
    (by simpa [hw1] using hcur)
    (by simp [hw1entry])
    (by rw [hw1entry]; simpa using hsurv)
    (by rw [hw1entry]; simpa using hstale)
  have hi1 : i < w1.objs.length := by simpa [hw1] using hi
  refine ⟨?_, ?_, ?_, ?_⟩
  · simp [runSharedCallers, hget, hstep, hrest, hw1]
  · simp [runSharedCallers, hget, hstep, hrest]
  · simp [runSharedCallers, hget, hstep, hrest, hw1entry]
  · intro ok result finishedAt
    have hfin : (runSharedCallers true now pollIntervalMs (m + 1) w).2 = w1 := by
      simp [runSharedCallers, hget, hstep, hrest]
    rw [hfin]
    have hin1 : (entryAt w1 i).inflight = some w.nextToken := by rw [hw1entry]
    exact completeRefreshOn_clears i w.nextToken ok result finishedAt w1 hi1 hin1

/-- Witness for C5 (amended): three callers sharing a surviving stale entry
start exactly one probe batch. -/
theorem single_flight_shared_entry_witness :
    (runSharedCallers true 700000 60000 3
      { objs := [{ lastPingAt := 100000, history := some ["a"], inflight := none }],
        current := some 0, nextToken := 0, batches := 0 }).2.batches = 1 :=
  (single_flight_shared_entry 3 700000 60000
    { objs := [{ lastPingAt := 100000, history := some ["a"], inflight := none }],
      current := some 0, nextToken := 0, batches := 0 } 0
    (by decide) rfl (by decide) rfl (by decide) (Or.inr (by decide))).1

/-! ## Theorems: C6 -/

theorem pruneCacheStep_batches (now : Int) (w : CacheWorld) :
    (pruneCacheStep now w).batches = w.batches := by
  cases hc : w.current with
  | none => simp [pruneCacheStep, hc]
  | some i =>
    by_cases hp : PING_CACHE_TTL_MS < now - (entryAt w i).lastPingAt <;>
      simp [pruneCacheStep, hc, hp]

theorem getPingCacheEntryStep_batches (now : Int) (w : CacheWorld) :
    (getPingCacheEntryStep now w).2.batches = w.batches := by
  unfold getPingCacheEntryStep
  cases hc : (pruneCacheStep now w).current with
  | none => simp [hc, pruneCacheStep_batches]
  | some i => simp [hc, pruneCacheStep_batches]

/-- C6 counterexample: with a cache entry younger than the poll interval —
which therefore also survives the fetch-time prune — `refreshMode = always`
returns the cached value and starts no probe batch at all, so `always` does
not force a fresh probe batch before returning. -/
theorem refresh_mode_always_counterexample :
    loadDashboardDataStep .always true ["a"] 200 60000
      { objs := [{ lastPingAt := 100, history := some ["a"], inflight := none }],
        current := some 0, nextToken := 0, batches := 0 } =
      (some RefreshObs.cachedHit,
        { objs := [{ lastPingAt := 100, history := some ["a"], inflight := none }],
          current := some 0, nextToken := 0, batches := 0 }) := rfl

/-- C6 (amended): `never` performs no refresh and starts no probe batch;
`missing` can only start a batch when targets exist and the filtered history
read was empty; `always` invokes the refresh path, which starts one probe
batch when the caller's entry is stale with nothing in flight — both for a
cold store (a fresh entry created by the pruning fetch) and for a shared
surviving entry — but returns the cached value, starting no batch, while
the entry is younger than the poll interval. -/
theorem refresh_mode_semantics (allowedNonempty : Bool) (keys : Snap)
    (now pollIntervalMs : Int) (w : CacheWorld) (i : Nat) :
    ((loadDashboardDataStep .never allowedNonempty keys now pollIntervalMs w).1 = none ∧
      (loadDashboardDataStep .never allowedNonempty keys now pollIntervalMs w).2.batches
        = w.batches) ∧
    ((loadDashboardDataStep .missing allowedNonempty keys now pollIntervalMs w).2.batches
        ≠ w.batches →
      (allowedNonempty = true ∧ keys.isEmpty = true)) ∧
    (allowedNonempty = true → w.current = none →
      (loadDashboardDataStep .always allowedNonempty keys now pollIntervalMs w).2.batches
        = w.batches + 1) ∧
    (allowedNonempty = true → w.current = some i → i < w.objs.length →
      (entryAt w i).inflight = none →
      now - (entryAt w i).lastPingAt ≤ PING_CACHE_TTL_MS →
      ((entryAt w i).history = none ∨ pollIntervalMs ≤ now - (entryAt w i).lastPingAt) →
      (loadDashboardDataStep .always allowedNonempty keys now pollIntervalMs w).2.batches
        = w.batches + 1) ∧
    (allowedNonempty = true → w.current = some i →
      (entryAt w i).history.isSome = true →
      now - (entryAt w i).lastPingAt < pollIntervalMs →
      pollIntervalMs ≤ PING_CACHE_TTL_MS →
      loadDashboardDataStep .always allowedNonempty keys now pollIntervalMs w
        = (some RefreshObs.cachedHit, w)) := by
  refine ⟨⟨rfl, ?_⟩, ?_, ?_, ?_, ?_⟩
  · exact getPingCacheEntryStep_batches now w
  · intro hb
    by_cases hc : (allowedNonempty && keys.isEmpty) = true
    · exact Bool.and_eq_true_iff.mp hc
    · exfalso
      apply hb
      simp only [loadDashboardDataStep]
      rw [if_neg hc]
      exact getPingCacheEntryStep_batches now w
  · intro hA hcold
    subst hA
    have hg : getPingCacheEntryStep now w =
        (w.objs.length,
          { w with objs := w.objs ++ [{ lastPingAt := 0 }],
                   current := some w.objs.length }) := by
      simp [getPingCacheEntryStep, pruneCacheStep, hcold]
    have hentry : entryAt
        { w with objs := w.objs ++ [{ lastPingAt := 0 }],
                 current := some w.objs.length } w.objs.length
          = { lastPingAt := 0 } := by
      simp only [entryAt]
      exact getD_append_length w.objs _ _
    simp [loadDashboardDataStep, hg, refreshHistoryStepOn, hentry]
  · intro hA hcur hi hfree hsurv hstale
    subst hA
    have hget := getPingCacheEntryStep_noop now w i hcur hsurv
    simp [loadDashboardDataStep, hget, refreshHistoryStepOn,
      staleFreshFalse _ _ _ hstale, hfree]
  · intro hA hcur hsome hlt hpoll
    subst hA
    have hget := getPingCacheEntryStep_noop now w i hcur
      (le_trans (le_of_lt hlt) hpoll)
    simp [loadDashboardDataStep, hget, refreshHistoryStepOn, hsome, hlt]

/-- Witness for C6 (amended) at a cold store: `always` starts one batch. -/
theorem refresh_mode_semantics_witness :
    (loadDashboardDataStep .always true [] 1000 60000
      { objs := [], current := none, nextToken := 0, batches := 0 }).2.batches = 1 :=
  (refresh_mode_semantics true [] 1000 60000
    { objs := [], current := none, nextToken := 0, batches := 0 } 0).2.2.1 rfl rfl

/-! ## Concurrency of the probe fan-out (providers/index.ts)

`runProviderChecks` dispatches the first pass as
`Promise.all(configs.map((config) => checkWithRetry(config)))`: the `map`
synchronously invokes every `checkWithRetry`, each of which starts its
network request before suspending at its first await, so all probes are in
flight before any completes.  The dispatch is modelled as an event trace
(`true` = a probe starts, `false` = one completes). -/

def promiseAllTrace (n : Nat) : List Bool :=
  List.replicate n true ++ List.replicate n false

/-- Highest number of simultaneously in-flight probes along a trace, starting
from `cur` in flight. -/
def peakInFlight : List Bool → Nat → Nat
  | [], _ => 0
  | e :: es, cur =>
    let nxt := if e then cur + 1 else cur - 1
    max nxt (peakInFlight es nxt)

/-! ## Theorems: C8 -/

theorem peakInFlight_replicate_false (m : Nat) : ∀ c, peakInFlight (List.replicate m false) c ≤ c := by
  induction m with
  | zero => intro c; simp [peakInFlight]
  | succ k ih =>
    intro c
    show max (c - 1) (peakInFlight (List.replicate k false) (c - 1)) ≤ c
    have := ih (c - 1)
    omega

theorem peakInFlight_replicate_true (k : Nat) :
    ∀ c (rest : List Bool), peakInFlight (List.replicate (k + 1) true ++ rest) c =
      max (c + (k + 1)) (peakInFlight rest (c + (k + 1))) := by
  induction k with
  | zero => intro c rest; rfl
  | succ j ih =>
    intro c rest
    show max (c + 1) (peakInFlight (List.replicate (j + 1) true ++ rest) (c + 1)) = _
    rw [ih (c + 1) rest]
    have h1 : c + 1 + (j + 1) = c + (j + 1 + 1) := by omega
    rw [h1, ← max_assoc, max_eq_right (by omega : c + 1 ≤ c + (j + 1 + 1))]

/-- Peak in-flight probes of the `Promise.all` dispatch equal the number of
due configs: nothing bounds the fan-out. -/
theorem peakInFlight_promiseAllTrace (n : Nat) : peakInFlight (promiseAllTrace n) 0 = n := by
  cases n with
  | zero => rfl
  | succ k =>
    rw [promiseAllTrace, peakInFlight_replicate_true k 0 (List.replicate (k + 1) false)]
    have hle := peakInFlight_replicate_false (k + 1) (0 + (k + 1))
    omega

/-- C8 counterexample: with the default concurrency setting 5, a batch of 6
due targets is dispatched with all 6 probes in flight at once — the
configured maximum is not enforced by the fan-out. -/
theorem concurrency_bound_counterexample :
    getCheckConcurrency none = 5 ∧
    peakInFlight (promiseAllTrace 6) 0 = 6 ∧
    ¬ (peakInFlight (promiseAllTrace 6) 0 ≤ 5) := by
  refine ⟨?_, by decide, by decide⟩
  norm_num [getCheckConcurrency, parseCheckConcurrency, DEFAULT_CHECK_CONCURRENCY,
    MIN_CHECK_CONCURRENCY, MAX_CHECK_CONCURRENCY, Option.bind]

/-- C8 (amended): the configuration value exists — `getCheckConcurrency`
clamps to [1, 20] and defaults to 5 — but `runProviderChecks` dispatches the
whole batch with `Promise.all`, so the number of concurrently running probes
equals the number of due targets, whatever the configured maximum. -/
theorem concurrency_config_unenforced (env : Option MetaVal) (n : Nat) :
    (1 ≤ getCheckConcurrency env ∧ getCheckConcurrency env ≤ 20) ∧
    getCheckConcurrency none = 5 ∧
    peakInFlight (promiseAllTrace n) 0 = n := by
  refine ⟨⟨?_, ?_⟩, ?_, peakInFlight_promiseAllTrace n⟩
  · exact le_max_left _ _
  · exact max_le (by norm_num [MIN_CHECK_CONCURRENCY])
      (le_trans (min_le_left _ _) (by norm_num [MAX_CHECK_CONCURRENCY]))
  · norm_num [getCheckConcurrency, parseCheckConcurrency, DEFAULT_CHECK_CONCURRENCY,
      MIN_CHECK_CONCURRENCY, MAX_CHECK_CONCURRENCY, Option.bind]

/-! ## database/history.ts: the snapshot mapping -/

def MAX_POINTS_PER_PROVIDER : Nat := 60

/-- `options?.limitPerConfig ?? MAX_POINTS_PER_PROVIDER` in
`SnapshotStore.fetch`. -/
def fetchLimitPerConfig (optLimit : Option Nat) : Nat :=
  optLimit.getD MAX_POINTS_PER_PROVIDER

/-- A row of the `get_recent_check_history` RPC result.  `checked_at` is an
ISO-8601 string modelled by its epoch-millisecond value (the code sorts via
`new Date(checkedAt).getTime()`); the TS `row.status as ...` cast is the
identity.  The source's `type` field is named `rowType`. -/
structure RpcHistoryRow where
  config_id : String
  status : HealthStatus
  latency_ms : Option Int := none
  ping_latency_ms : Option Int := none
  checked_at : Int
  message : Option String := none
  name : String := ""
  rowType : String := ""
  model : String := ""
  endpoint : Option String := none
  group_name : Option String := none
deriving DecidableEq, Repr

/-- The per-row `CheckResult` built inside `mapRowsToSnapshot` (with the
`?? ""` / `?? null` defaults of the source). -/
def rowToCheckResult (row : RpcHistoryRow) : CheckResult :=
  { id := row.config_id, name := row.name, providerType := row.rowType,
    endpoint := row.endpoint.getD "", model := row.model, status := row.status,
    latencyMs := row.latency_ms, pingLatencyMs := row.ping_latency_ms,
    checkedAt := row.checked_at, message := row.message.getD "",
    groupName := row.group_name }

/-- Insertion step of the newest-first sort
`(a, b) => new Date(b.checkedAt).getTime() - new Date(a.checkedAt).getTime()`. -/
def insertByCheckedDesc (a : CheckResult) : List CheckResult → List CheckResult
  | [] => [a]
  | b :: bs =>
    if b.checkedAt ≤ a.checkedAt then a :: b :: bs else b :: insertByCheckedDesc a bs

/-- The per-key sort of `mapRowsToSnapshot` (any sort realising the
comparator yields a list ordered newest-first; `Array.prototype.sort` is
realised here as insertion sort). -/
def sortByCheckedDesc : List CheckResult → List CheckResult
  | [] => []
  | a :: as => insertByCheckedDesc a (sortByCheckedDesc as)

/-- `mapRowsToSnapshot`: the source pushes each row into `history[config_id]`
in row order — pointwise, the entry list of `key` before sorting is the
order-preserving restriction of `rows` to that key — then sorts each list
newest-first and slices it to `limitPerConfig`. -/
def mapRowsToSnapshot (rows : List RpcHistoryRow) (limitPerConfig : Nat) :
    String → List CheckResult :=
  fun key =>
    (sortByCheckedDesc
      ((rows.filter fun r => r.config_id == key).map rowToCheckResult)).take limitPerConfig

/-- A row of the fallback `check_history` query (no JOIN; the display
columns come from a separate `check_configs` query). -/
structure FallbackHistoryRecord where
  config_id : String
  status : HealthStatus
  latency_ms : Option Int := none
  ping_latency_ms : Option Int := none
  checked_at : Int
  message : Option String := none
deriving DecidableEq, Repr

/-- The display columns fetched from `check_configs` in fallback mode. -/
structure ConfigInfo where
  name : String := ""
  rowType : String := ""
  model : String := ""
  endpoint : String := ""
  group_name : Option String := none
deriving DecidableEq, Repr

/-- The `CheckResult` built for one fallback record joined with its config. -/
def fallbackRecordToCheckResult (r : FallbackHistoryRecord) (cfg : ConfigInfo) :
    CheckResult :=
  { id := r.config_id, name := cfg.name, providerType := cfg.rowType,
    endpoint := cfg.endpoint, model := cfg.model, status := r.status,
    latencyMs := r.latency_ms, pingLatencyMs := r.ping_latency_ms,
    checkedAt := r.checked_at, message := r.message.getD "",
    groupName := cfg.group_name }

/-- `fallbackFetchSnapshot` (history.ts): records whose config is missing
from the `check_configs` result are skipped (`if (!config) continue`); per
key the grouped list is sorted newest-first and sliced to the constant
`MAX_POINTS_PER_PROVIDER` — the caller's `limitPerConfig` is not consulted
on this path. -/
def fallbackFetchSnapshot (records : List FallbackHistoryRecord)
    (configsMap : List (String × ConfigInfo)) : String → List CheckResult :=
  fun key =>
    match configsMap.lookup key with
    | none => []
    | some cfg =>
      (sortByCheckedDesc
        ((records.filter fun r => r.config_id == key).map
          (fun r => fallbackRecordToCheckResult r cfg))).take MAX_POINTS_PER_PROVIDER

/-- How one `SnapshotStore.fetch` call is served: by the
`get_recent_check_history` RPC, by the fallback queries after an RPC error
whose message names the missing function, or by the empty snapshot after
any other RPC error. -/
inductive FetchServe where
  | rpc (rows : List RpcHistoryRow)
  | fallback (records : List FallbackHistoryRecord)
      (configsMap : List (String × ConfigInfo))
  | rpcError
deriving DecidableEq, Repr

/-- `SnapshotStore.fetch`: resolves `limitPerConfig` (default
`MAX_POINTS_PER_PROVIDER`) and passes it to the RPC and to
`mapRowsToSnapshot`; the fallback path ignores it.  (The early `{}` return
for an explicitly empty allowed-id set and the pushing of the allowed-id
filter into the queries happen before any rows exist: `rows` / `records`
are the query results.) -/
def snapshotStoreFetch (optLimit : Option Nat) (serve : FetchServe) :
    String → List CheckResult :=
  match serve with
  | .rpc rows => mapRowsToSnapshot rows (fetchLimitPerConfig optLimit)
  | .fallback records configsMap => fallbackFetchSnapshot records configsMap
  | .rpcError => fun _ => []

/-! ## Theorems: C10 -/

theorem mem_insertByCheckedDesc (a x : CheckResult) (l : List CheckResult) :
    x ∈ insertByCheckedDesc a l ↔ x = a ∨ x ∈ l := by
  induction l with
  | nil => simp [insertByCheckedDesc]
  | cons b bs ih =>
    by_cases hc : b.checkedAt ≤ a.checkedAt
    · simp [insertByCheckedDesc, hc]
    · simp only [insertByCheckedDesc, if_neg hc, List.mem_cons, ih]
      tauto

theorem pairwise_insertByCheckedDesc (a : CheckResult) (l : List CheckResult)
    (h : l.Pairwise fun x y => y.checkedAt ≤ x.checkedAt) :
    (insertByCheckedDesc a l).Pairwise fun x y => y.checkedAt ≤ x.checkedAt := by
  induction l with
  | nil => simp [insertByCheckedDesc]
  | cons b bs ih =>
    rcases List.pairwise_cons.mp h with ⟨hb, hbs⟩
    by_cases hc : b.checkedAt ≤ a.checkedAt
    · rw [insertByCheckedDesc, if_pos hc]
      refine List.pairwise_cons.mpr ⟨?_, h⟩
      intro x hx
      rcases List.mem_cons.mp hx with rfl | hx
      · exact hc
      · exact le_trans (hb x hx) hc
    · rw [insertByCheckedDesc, if_neg hc]
      refine List.pairwise_cons.mpr ⟨?_, ih hbs⟩
      intro x hx
      rcases (mem_insertByCheckedDesc a x bs).mp hx with rfl | hx
      · exact le_of_lt (lt_of_not_le hc)
      · exact hb x hx

theorem pairwise_sortByCheckedDesc (l : List CheckResult) :
    (sortByCheckedDesc l).Pairwise fun x y => y.checkedAt ≤ x.checkedAt := by
  induction l with
  | nil => simp [sortByCheckedDesc]
  | cons a as ih => exact pairwise_insertByCheckedDesc a _ ih

/-- C10 counterexample: a fetch with `limitPerConfig = 1` (as the metrics
collector issues) served by the fallback path returns two entries for the
target — the fallback slices to the constant 60, not to the caller's
`limitPerConfig`. -/
theorem history_fallback_limit_counterexample :
    (snapshotStoreFetch (some 1)
      (.fallback
        [{ config_id := "a", status := .operational, checked_at := 2 },
         { config_id := "a", status := .operational, checked_at := 1 }]
        [("a", ({} : ConfigInfo))]) "a").length = 2 ∧
    ¬ ((snapshotStoreFetch (some 1)
      (.fallback
        [{ config_id := "a", status := .operational, checked_at := 2 },
         { config_id := "a", status := .operational, checked_at := 1 }]
        [("a", ({} : ConfigInfo))]) "a").length ≤ fetchLimitPerConfig (some 1)) := by
  exact ⟨rfl, by decide⟩

/-- C10 (amended): every snapshot returned by `SnapshotStore.fetch` has each
target's entry list sorted newest-first by `checkedAt`, however many rows
the underlying query returned; the RPC path caps each list at
`limitPerConfig` (default `MAX_POINTS_PER_PROVIDER = 60`), while the
fallback path caps it at the constant `MAX_POINTS_PER_PROVIDER` regardless
of the requested `limitPerConfig`. -/
theorem history_fetch_sorted_bounded (optLimit : Option Nat) (serve : FetchServe)
    (rows : List RpcHistoryRow) (records : List FallbackHistoryRecord)
    (configsMap : List (String × ConfigInfo)) (key : String) :
    (snapshotStoreFetch optLimit serve key).Pairwise
      (fun a b => b.checkedAt ≤ a.checkedAt) ∧
    ((snapshotStoreFetch optLimit (.rpc rows) key).length
      ≤ fetchLimitPerConfig optLimit) ∧
    ((snapshotStoreFetch optLimit (.fallback records configsMap) key).length
      ≤ MAX_POINTS_PER_PROVIDER) ∧
    fetchLimitPerConfig none = 60 := by
  refine ⟨?_, ?_, ?_, rfl⟩
  · cases serve with
    | rpc rows2 =>
      exact List.Pairwise.sublist (List.take_sublist _ _) (pairwise_sortByCheckedDesc _)
    | fallback records2 configsMap2 =>
      show (fallbackFetchSnapshot records2 configsMap2 key).Pairwise _
      rw [fallbackFetchSnapshot]
      cases configsMap2.lookup key with
      | none => simp
      | some cfg =>
        exact List.Pairwise.sublist (List.take_sublist _ _) (pairwise_sortByCheckedDesc _)
    | rpcError => simp [snapshotStoreFetch]
  · show (mapRowsToSnapshot rows (fetchLimitPerConfig optLimit) key).length
      ≤ fetchLimitPerConfig optLimit
    rw [mapRowsToSnapshot, List.length_take]
    exact min_le_left _ _
  · show (fallbackFetchSnapshot records configsMap key).length ≤ MAX_POINTS_PER_PROVIDER
    rw [fallbackFetchSnapshot]
    cases configsMap.lookup key with
    | none => simp
    | some cfg =>
      rw [List.length_take]
      exact min_le_left _ _

end CheckCx
